import Mathlib

/-!
Shallow embedding of the fixed-size-block memory pool allocator from
`src/Memory Pool Allocator/main.cpp`.

Modelling conventions:
* Pointers (`Block*`, `void*`) are machine words; we model them as `Nat`
  with `0` playing the role of `nullptr`.  `uintptr_t`/`size_t` arithmetic
  inside `alignPointer` is 64-bit and wraps, so the sum there is taken
  modulo `2 ^ 64`; pointer arithmetic while slicing a successfully
  reserved region cannot overflow (the region fits in the address space),
  so it is kept exact.
* The only memory the pool itself reads or writes is the first word of a
  block (the intrusive `next` link).  Memory is therefore a map from a
  block's address to the pointer stored in its first word.  Fresh memory
  from `operator new` holds arbitrary values, so theorems quantify over
  the initial map.  The map is word-granular: a cell is identified by its
  start address, which is faithful when `blockSize` is at least the
  pointer width (8), the regime the design intends.
* `operator new` is modelled by an oracle argument `raw : Option Nat`
  supplied by the environment: `some addr` means the reservation
  succeeded and returned address `addr` (a real `operator new` result is
  never 0), `none` means it failed, which in C++ raises `std::bad_alloc`
  (modelled as `Except.error .outOfMemory`).
* The spin lock serialises the operations; claims are stated about the
  quiescent (sequential) semantics, so lock acquisition/release is not
  modelled.  Console output in `resizePool` is ignored.
* Uninitialised fields: the constructor `MemoryPool(...)` assigns
  `alignment` and then `initializeMemoryPool` assigns `blockSize`,
  `totalBlocks`, `poolStart` and `freeList`, but **no code path
  initialises `usedBlocks`**.  `mkMemoryPool` therefore starts from an
  arbitrary record (the indeterminate contents of the object) and only
  overwrites what the source overwrites.
-/

namespace MemPool

/-- Memory, restricted to the cells the pool touches: the first word of
each block, holding the intrusive free-list link.  Pointer values are
machine words (`Nat`), with `0` playing the role of `nullptr`. -/
abbrev Mem := Nat → Nat

/-- Store value `v` into the cell at address `a`. -/
def writeMem (m : Mem) (a v : Nat) : Mem := fun b => if b = a then v else m b

/-- The exceptions the source can raise: `std::invalid_argument` from
`alignPointer`, `std::bad_alloc` from a failed `operator new`, and the
`std::runtime_error` thrown by `resizePool` when `operator new` would
return null. -/
inductive PoolError where
  | invalidAlignment
  | outOfMemory
  | resizeFailed
deriving DecidableEq, Repr

/-- `true` iff the computation did not raise. -/
def exOk {α : Type} (x : Except PoolError α) : Bool :=
  match x with
  | .ok _ => true
  | .error _ => false

/-- Embedding of `alignPointer` (main.cpp:33-45): validates that
`alignment` is a non-zero power of two via `a != 0 && (a & (a-1)) == 0`,
then returns `p + ((a - p % a) % a)` in wrapping 64-bit `uintptr_t`
arithmetic. -/
def alignPointer (p a : Nat) : Except PoolError Nat :=
  if a = 0 || (a &&& (a - 1)) != 0 then
    .error .invalidAlignment
  else
    .ok ((p + (a - p % a) % a) % 2 ^ 64)

/-- The pool's fields (main.cpp:47-55); the spin lock is not part of the
quiescent state. -/
structure MemoryPool where
  freeList : Nat
  poolStart : Nat
  blockSize : Nat
  totalBlocks : Nat
  usedBlocks : Nat
  alignment : Nat
deriving DecidableEq, Repr

/-- The slicing loop body shared by `initializeMemoryPool` and
`resizePool` (main.cpp:111-114, 130-133): starting from `cur`, perform
`n` iterations of `cur->next = cur + blockSize; cur = cur->next`,
returning the final memory and the final `cur`. -/
def linkLoop (m : Mem) (cur bs : Nat) : Nat → Mem × Nat
  | 0 => (m, cur)
  | n + 1 => linkLoop (writeMem m cur (cur + bs)) (cur + bs) bs n

/-- Slice a region starting at `start` into a chain of `k` blocks
(main.cpp:109-115): the loop `for (i = 1; i < k; i++)` runs `k - 1`
times, then the final block's `next` is set to `tail` (`nullptr` at
construction; `resizePool` immediately overwrites it with the old
free-list head).  Note that for `k = 0` the loop body still writes one
cell, exactly as the source does. -/
def sliceChain (m : Mem) (start bs k : Nat) (tail : Nat) : Mem :=
  let r := linkLoop m start bs (k - 1)
  writeMem r.1 r.2 tail

/-- Embedding of `MemoryPool::initializeMemoryPool` (main.cpp:98-116):
stores `blockSize` and `totalBlocks`, reserves
`blockSize * totalBlocks + alignment - 1` bytes (oracle `raw`), aligns
the start, slices the region into a chain ending in `nullptr`, and makes
`freeList` point at the first block.  (`this->alignment = alignment` on
line 101 is a self-assignment and has no effect.) -/
def initializeMemoryPool (p : MemoryPool) (m : Mem) (blockSize totalBlocks : Nat)
    (raw : Option Nat) : Except PoolError (MemoryPool × Mem) :=
  match raw with
  | none => .error .outOfMemory
  | some rawAddr => do
    let poolStart ← alignPointer rawAddr p.alignment
    let m := sliceChain m poolStart blockSize totalBlocks 0
    .ok ({ p with
           blockSize := blockSize
           totalBlocks := totalBlocks
           poolStart := poolStart
           freeList := poolStart }, m)

/-- Embedding of the constructor `MemoryPool::MemoryPool`
(main.cpp:57-60): assigns `alignment`, then runs
`initializeMemoryPool`.  `garbage` is the indeterminate initial content
of the object's fields; in particular `usedBlocks` is never assigned on
this path. -/
def mkMemoryPool (garbage : MemoryPool) (m : Mem) (blocksize totalBlocks alignment : Nat)
    (raw : Option Nat) : Except PoolError (MemoryPool × Mem) :=
  initializeMemoryPool { garbage with alignment := alignment } m blocksize totalBlocks raw

/-- Embedding of `MemoryPool::resizePool` (main.cpp:118-142):
`newSize = totalBlocks + totalBlocks / 2`; reserve a region for
`newSize` blocks (oracle `raw`; a failed `operator new` raises
`bad_alloc`, and the explicit `if (!newRawPool) throw` fires only if the
oracle hands back address 0, which a real `operator new` never does);
align it, slice a fresh chain, overwrite the tail's `nullptr` with the
old free-list head, install the new head, and update `totalBlocks`. -/
def resizePool (p : MemoryPool) (m : Mem) (raw : Option Nat) :
    Except PoolError (MemoryPool × Mem) :=
  let newSize := p.totalBlocks + p.totalBlocks / 2
  match raw with
  | none => .error .outOfMemory
  | some rawAddr =>
    if rawAddr = 0 then .error .resizeFailed
    else do
      let newPoolStart ← alignPointer rawAddr p.alignment
      let r := linkLoop m newPoolStart p.blockSize (newSize - 1)
      let m := writeMem r.1 r.2 0
      let m := writeMem m r.2 p.freeList
      .ok ({ p with freeList := newPoolStart, totalBlocks := newSize }, m)

/-- Embedding of `MemoryPool::allocateBlock` (main.cpp:66-84): if the
free list is empty, attempt `resizePool` (whose exceptions propagate —
there is no handler); if the free list is still empty return `nullptr`
(pointer `0`); otherwise pop the head and increment `usedBlocks`.
Returns the popped pointer together with the new state. -/
def allocateBlock (p : MemoryPool) (m : Mem) (raw : Option Nat) :
    Except PoolError (Nat × MemoryPool × Mem) := do
  let (p, m) ← if p.freeList = 0 then resizePool p m raw else .ok (p, m)
  if p.freeList = 0 then
    .ok (0, p, m)
  else
    .ok (p.freeList,
         { p with
           freeList := m p.freeList
           usedBlocks := p.usedBlocks + 1 }, m)

/-- Embedding of `MemoryPool::deallocateBlock` (main.cpp:86-91):
`block->next = freeList; freeList = block`.  The source performs no
other update — in particular `usedBlocks` is left unchanged. -/
def deallocateBlock (p : MemoryPool) (m : Mem) (block : Nat) : MemoryPool × Mem :=
  ({ p with freeList := block }, writeMem m block p.freeList)

/-- Embedding of `MemoryPool::reset` (main.cpp:93-96):
`freeList = (Block*)poolStart; usedBlocks = 0`.  No memory is written
and no other field changes. -/
def reset (p : MemoryPool) : MemoryPool :=
  { p with freeList := p.poolStart, usedBlocks := 0 }

/-- Embedding of `MemoryPool::destroyMemoryPool` (main.cpp:144-148):
`operator delete(poolStart)` then null out `poolStart` and `freeList`.
Returns the new state together with the single pointer handed to
`operator delete`. -/
def destroyMemoryPool (p : MemoryPool) : MemoryPool × Nat :=
  ({ p with poolStart := 0, freeList := 0 }, p.poolStart)

/-- Walk the free list in memory `m` from pointer `p`, collecting the
visited block addresses; `fuel` bounds the walk so it is total. -/
def freeChain (m : Mem) (p : Nat) : Nat → List Nat
  | 0 => []
  | fuel + 1 => if p = 0 then [] else p :: freeChain m (m p) fuel

/-- `isChainFrom m p L q` holds when walking from pointer `p` through
memory `m` visits exactly the (non-null) addresses in `L` and then
arrives at pointer `q`. -/
def isChainFrom (m : Mem) (p : Nat) : List Nat → Nat → Bool
  | [], q => p == q
  | a :: L, q => a != 0 && p == a && isChainFrom m (m a) L q

/-- A complete free list: the walk from `p` visits exactly `L` and ends
at `nullptr`. -/
def isChain (m : Mem) (p : Nat) (L : List Nat) : Bool :=
  isChainFrom m p L 0

/-- The addresses of blocks `0, …, k-1` of a region sliced at `start`
with block size `bs`. -/
def blockAddrs (start bs k : Nat) : List Nat :=
  (List.range k).map fun i => start + i * bs

/-- The specification's notion of a valid alignment: a power of two
(and hence non-zero).  Written from the spec's words, to be compared
with the code's bit test. -/
def specValidAlignment (a : Nat) : Prop := ∃ k, a = 2 ^ k

deriving instance DecidableEq for Except

/-! ### Concrete fixtures

`garbagePool` stands for the indeterminate contents of a freshly
allocated `MemoryPool` object before the constructor runs; the value 7
in `usedBlocks` is arbitrary (no code path assigns that field).
`memZero` is one concrete content for fresh memory. -/

def garbagePool : MemoryPool :=
  { freeList := 0, poolStart := 0, blockSize := 0, totalBlocks := 0
    usedBlocks := 7, alignment := 0 }

/-- Concrete fresh-memory content for the runs below. -/
def memZero : Mem := fun _ => 0

/-- Concrete run: construct a 2-block pool (blockSize 16, alignment 8,
region reserved at address 8), `reset` (which zeroes `usedBlocks`),
allocate one block, deallocate it again.  Observes the allocated
pointer, `usedBlocks` right after the allocation, and `usedBlocks`
after the deallocation. -/
def c1run : Except PoolError (Nat × Nat × Nat) := do
  let (p0, m0) ← mkMemoryPool garbagePool memZero 16 2 8 (some 8)
  let p1 := reset p0
  let (b, p2, m2) ← allocateBlock p1 m0 none
  let (p3, _) := deallocateBlock p2 m2 b
  .ok (b, p2.usedBlocks, p3.usedBlocks)

/-- Concrete run: construct a 2-block pool at address 8, allocate three
times (the third triggers growth into a fresh region at address 200),
then `reset`.  Observes the head after reset, the start of the current
(second) region, `totalBlocks` and `usedBlocks` after reset, and the
free chain reachable from the head after reset. -/
def c2run : Except PoolError (Nat × Nat × Nat × Nat × List Nat) := do
  let (p0, m0) ← mkMemoryPool garbagePool memZero 16 2 8 (some 8)
  let (_, p1, m1) ← allocateBlock p0 m0 none
  let (_, p2, m2) ← allocateBlock p1 m1 none
  let (b3, p3, m3) ← allocateBlock p2 m2 (some 200)
  let pr := reset p3
  .ok (pr.freeList, b3, pr.totalBlocks, pr.usedBlocks, freeChain m3 pr.freeList 10)

/-- The same run as `c2run`, continued after the reset with
`totalBlocks` (= 3) further allocations whose growth reservation, if
any, fails. -/
def c2exhaust : Except PoolError Nat := do
  let (p0, m0) ← mkMemoryPool garbagePool memZero 16 2 8 (some 8)
  let (_, p1, m1) ← allocateBlock p0 m0 none
  let (_, p2, m2) ← allocateBlock p1 m1 none
  let (_, p3, m3) ← allocateBlock p2 m2 (some 200)
  let pr := reset p3
  let (_, q1, n1) ← allocateBlock pr m3 none
  let (_, q2, n2) ← allocateBlock q1 n1 none
  let (x3, _, _) ← allocateBlock q2 n2 none
  .ok x3

/-- Concrete run: construct a pool with capacity 1 at address 8,
allocate once (emptying the free list), allocate again, which grows the
pool with a fresh region reserved at 200.  Observes the two returned
pointers and `totalBlocks` after the growth. -/
def c3run : Except PoolError (Nat × Nat × Nat) := do
  let (p0, m0) ← mkMemoryPool garbagePool memZero 16 1 8 (some 8)
  let (b1, p1, m1) ← allocateBlock p0 m0 none
  let (b2, p2, _) ← allocateBlock p1 m1 (some 200)
  .ok (b1, b2, p2.totalBlocks)

/-- Concrete run: construct a pool with capacity 1 at address 8,
allocate once, then allocate again while the growth reservation fails
(`operator new` raises). -/
def c4run : Except PoolError (Nat × Nat) := do
  let (p0, m0) ← mkMemoryPool garbagePool memZero 16 1 8 (some 8)
  let (_, p1, m1) ← allocateBlock p0 m0 none
  let (b2, p2, _) ← allocateBlock p1 m1 none
  .ok (b2, p2.usedBlocks)

/-- Concrete run: construct a 3-block pool (blockSize 16, alignment 8,
region reserved at 40) and observe the head, the free chain, whether the
chain is exactly blocks 0,1,2 of the region ending in null, and
`usedBlocks`. -/
def c8run : Except PoolError (Nat × List Nat × Bool × Nat) := do
  let (p0, m0) ← mkMemoryPool garbagePool memZero 16 3 8 (some 40)
  .ok (p0.freeList, freeChain m0 p0.freeList 10,
       isChain m0 p0.freeList (blockAddrs p0.poolStart 16 3), p0.usedBlocks)

/-- A pool state whose original region starts at 8 and currently holds
the two-block chain `[8, 24]` in memory (`c2wMem`); used to instantiate
the reset theorem. -/
def c2wPool : MemoryPool :=
  { freeList := 0, poolStart := 8, blockSize := 16, totalBlocks := 2
    usedBlocks := 5, alignment := 8 }

/-- Memory holding the chain `8 → 24 → null`. -/
def c2wMem : Mem := writeMem (writeMem memZero 8 24) 24 0

/-- A capacity-2 pool whose free list currently holds the single block
100 (chain in `c3wMem`); used to instantiate the resize theorem with a
non-empty free list. -/
def c3wPool : MemoryPool :=
  { freeList := 100, poolStart := 8, blockSize := 16, totalBlocks := 2
    usedBlocks := 0, alignment := 8 }

/-- Memory holding the chain `100 → null`. -/
def c3wMem : Mem := writeMem memZero 100 0

/-- A capacity-1 pool whose only block is outstanding (empty free
list). -/
def c4wPool : MemoryPool :=
  { freeList := 0, poolStart := 8, blockSize := 16, totalBlocks := 1
    usedBlocks := 1, alignment := 8 }

/-- A 2-block pool with one outstanding block (block 8) and block 24
still free. -/
def c9wPool : MemoryPool :=
  { freeList := 24, poolStart := 8, blockSize := 16, totalBlocks := 2
    usedBlocks := 1, alignment := 8 }

/-- A 2-block pool with an exhausted free list, about to grow. -/
def c10wPool : MemoryPool :=
  { freeList := 0, poolStart := 8, blockSize := 16, totalBlocks := 2
    usedBlocks := 2, alignment := 8 }

end MemPool

namespace MemPool

/-! ### Supporting lemmas -/

/-- The bit trick in `alignPointer`'s guard: for a natural number `a`,
`a & (a - 1) == 0` holds exactly when `a` is zero or a power of two. -/
theorem land_pred_eq_zero_iff (a : Nat) : a &&& (a - 1) = 0 ↔ (a = 0 ∨ ∃ k, a = 2 ^ k) := by
  induction a using Nat.strong_induction_on with
  | _ a ih =>
    rcases Nat.eq_zero_or_pos a with rfl | hpos
    · simp
    rcases Nat.even_or_odd a with ⟨b, hb⟩ | ⟨b, hb⟩
    · have hb1 : 1 ≤ b := by omega
      have hbits : a &&& (a - 1) = 2 * (b &&& (b - 1)) := by
        have h2 : a - 1 = Nat.bit true (b - 1) := by simp [Nat.bit_val]; omega
        have h1 : a = Nat.bit false b := by simp [Nat.bit_val]; omega
        rw [h2, h1, Nat.land_bit]
        simp [Nat.bit_val]
      rw [hbits]
      have ihb := ih b (by omega)
      constructor
      · intro h
        have hz : b &&& (b - 1) = 0 := by omega
        rcases ihb.mp hz with rfl | ⟨k, rfl⟩
        · omega
        · refine Or.inr ⟨k + 1, ?_⟩
          have : (2 : Nat) ^ (k + 1) = 2 * 2 ^ k := by ring
          omega
      · rintro (rfl | ⟨k, hk⟩)
        · omega
        · rcases k with _ | k
          · omega
          · have h2k : (2 : Nat) ^ (k + 1) = 2 * 2 ^ k := by ring
            have hbk : b = 2 ^ k := by omega
            have hz : b &&& (b - 1) = 0 := ihb.mpr (Or.inr ⟨k, hbk⟩)
            omega
    · rcases Nat.eq_zero_or_pos b with rfl | hb1
      · have ha1 : a = 1 := by omega
        subst ha1
        simp
        exact ⟨0, rfl⟩
      · have hbits : a &&& (a - 1) = 2 * b := by
          have h2 : a - 1 = Nat.bit false b := by simp [Nat.bit_val]; omega
          have h1 : a = Nat.bit true b := by simp [Nat.bit_val]; omega
          rw [h2, h1, Nat.land_bit]
          simp [Nat.bit_val, Nat.and_self]
        rw [hbits]
        constructor
        · intro h; omega
        · rintro (rfl | ⟨k, hk⟩)
          · omega
          · rcases k with _ | k
            · omega
            · exfalso
              have : (2 : Nat) ^ (k + 1) = 2 * 2 ^ k := by ring
              omega

/-- On a valid (power-of-two) alignment, `alignPointer` does not raise
and returns the rounded-up address, wrapped to 64 bits. -/
theorem alignPointer_eq_ok (p a : Nat) (ha : specValidAlignment a) :
    alignPointer p a = .ok ((p + (a - p % a) % a) % 2 ^ 64) := by
  have hz : a ≠ 0 := by
    obtain ⟨k, rfl⟩ := ha
    positivity
  have hland : a &&& (a - 1) = 0 :=
    (land_pred_eq_zero_iff _).mpr (Or.inr ha)
  unfold alignPointer
  simp [hz, hland]

/-- Overwriting the same cell twice keeps only the second write
(the `currentBlock->next = nullptr; currentBlock->next = freeList`
pair in `resizePool`). -/
theorem writeMem_same (m : Mem) (a v w : Nat) :
    writeMem (writeMem m a v) a w = writeMem m a w := by
  funext b
  unfold writeMem
  by_cases h : b = a <;> simp [h]

/-- The slicing loop leaves `currentBlock` on the `n`-th block. -/
theorem linkLoop_snd (m : Mem) (cur bs n : Nat) : (linkLoop m cur bs n).2 = cur + n * bs := by
  induction n generalizing m cur with
  | zero => simp [linkLoop]
  | succ n ih =>
    rw [linkLoop, ih]
    ring

/-- Cells not touched by the slicing loop keep their previous value. -/
theorem linkLoop_read_out (m : Mem) (cur bs n a : Nat)
    (h : ∀ i, i < n → a ≠ cur + i * bs) : (linkLoop m cur bs n).1 a = m a := by
  induction n generalizing m cur with
  | zero => simp [linkLoop]
  | succ n ih =>
    rw [linkLoop]
    rw [ih _ _ (fun i hi hc => by
      refine h (i + 1) (by omega) ?_
      rw [hc]; ring)]
    have h0 : a ≠ cur := by
      have := h 0 (by omega)
      simpa using this
    simp [writeMem, h0]

/-- After the slicing loop, block `i` links to block `i + 1`. -/
theorem linkLoop_read_in (m : Mem) (cur bs : Nat) (hbs : 1 ≤ bs) (n i : Nat) (hi : i < n) :
    (linkLoop m cur bs n).1 (cur + i * bs) = cur + (i + 1) * bs := by
  induction n generalizing m cur i with
  | zero => omega
  | succ n ih =>
    rw [linkLoop]
    rcases i with _ | j
    · rw [linkLoop_read_out _ _ _ _ _ (fun j hj hc => by
        simp at hc
        omega)]
      simp [writeMem]
    · have hshift : cur + (j + 1) * bs = (cur + bs) + j * bs := by ring
      rw [hshift, ih _ _ j (by omega)]
      ring

/-- Reading a middle block of a freshly sliced chain yields the link to
the following block. -/
theorem sliceChain_read_mid (m : Mem) (start bs k tail : Nat) (hbs : 1 ≤ bs) (i : Nat)
    (hi : i + 1 < k) :
    sliceChain m start bs k tail (start + i * bs) = start + (i + 1) * bs := by
  unfold sliceChain writeMem
  simp only [linkLoop_snd]
  have hne : start + i * bs ≠ start + (k - 1) * bs := by
    have hx : i * bs < (k - 1) * bs :=
      (Nat.mul_lt_mul_right (show 0 < bs by omega)).mpr (show i < k - 1 by omega)
    omega
  simp only [hne, if_false]
  exact linkLoop_read_in m start bs hbs (k - 1) i (by omega)

/-- Reading the last block of a freshly sliced chain yields `tail`. -/
theorem sliceChain_read_last (m : Mem) (start bs k tail : Nat) :
    sliceChain m start bs k tail (start + (k - 1) * bs) = tail := by
  unfold sliceChain writeMem
  simp only [linkLoop_snd]
  simp

/-- Cells outside a freshly sliced chain keep their previous value. -/
theorem sliceChain_read_out (m : Mem) (start bs k tail a : Nat) (hk : 1 ≤ k)
    (h : ∀ i, i < k → a ≠ start + i * bs) :
    sliceChain m start bs k tail a = m a := by
  unfold sliceChain writeMem
  simp only [linkLoop_snd]
  have hne : a ≠ start + (k - 1) * bs := h (k - 1) (by omega)
  simp only [hne, if_false]
  exact linkLoop_read_out m start bs (k - 1) a (fun i hi => h i (by omega))

/-- Concatenating two chain walks. -/
theorem isChainFrom_append (m : Mem) (p q r : Nat) (A B : List Nat)
    (hA : isChainFrom m p A q = true) (hB : isChainFrom m q B r = true) :
    isChainFrom m p (A ++ B) r = true := by
  induction A generalizing p with
  | nil =>
    simp [isChainFrom] at hA
    subst hA
    simpa using hB
  | cons x A ih =>
    simp [isChainFrom] at hA ⊢
    obtain ⟨⟨hx, hpx⟩, hrest⟩ := hA
    exact ⟨⟨hx, hpx⟩, ih _ hrest⟩

/-- A chain walk only reads the cells it visits, so it is stable under
memory updates outside the chain. -/
theorem isChainFrom_congr (m M : Mem) (p q : Nat) (A : List Nat)
    (h : ∀ a, a ∈ A → M a = m a) (hA : isChainFrom m p A q = true) :
    isChainFrom M p A q = true := by
  induction A generalizing p with
  | nil => simpa [isChainFrom] using hA
  | cons x A ih =>
    simp [isChainFrom] at hA ⊢
    obtain ⟨⟨hx, hpx⟩, hrest⟩ := hA
    refine ⟨⟨hx, hpx⟩, ?_⟩
    rw [h x (by simp)]
    exact ih (m x) (fun a ha => h a (by simp [ha])) hrest

/-- Peeling the first block off `blockAddrs`. -/
theorem blockAddrs_succ (start bs k : Nat) :
    blockAddrs start bs (k + 1) = start :: blockAddrs (start + bs) bs k := by
  unfold blockAddrs
  rw [List.range_succ_eq_map, List.map_cons, List.map_map]
  simp only [Nat.zero_mul, Nat.add_zero]
  congr 1
  apply List.map_congr_left
  intro i _
  simp [Function.comp]
  ring

/-- A memory that holds the block-`i`-to-block-`i+1` links of a `k`-block
slice, with the last block linking to `tail`, walks as the chain
`blockAddrs start bs k` ending at `tail`. -/
theorem isChainFrom_blockAddrs (M : Mem) (bs : Nat) (hbs : 1 ≤ bs) (k : Nat) :
    ∀ (start tail : Nat), 1 ≤ start → 1 ≤ k →
    (∀ i, i + 1 < k → M (start + i * bs) = start + (i + 1) * bs) →
    M (start + (k - 1) * bs) = tail →
    isChainFrom M start (blockAddrs start bs k) tail = true := by
  induction k with
  | zero => omega
  | succ k ih =>
    intro start tail hstart hdummy hmid hlast
    rw [blockAddrs_succ]
    rcases Nat.eq_zero_or_pos k with rfl | hkpos
    · simp [blockAddrs, isChainFrom]
      constructor
      · omega
      · simpa using hlast
    · simp only [isChainFrom, Bool.and_eq_true, bne_iff_ne, ne_eq, beq_iff_eq]
      refine ⟨⟨?_, trivial⟩, ?_⟩
      · omega
      have hm0 : M start = start + bs := by
        have := hmid 0 (by omega)
        simpa using this
      rw [hm0]
      apply ih (start + bs) tail (by omega) hkpos
      · intro i hi
        have h := hmid (i + 1) (by omega)
        have e1 : start + (i + 1) * bs = start + bs + i * bs := by ring
        have e2 : start + (i + 1 + 1) * bs = start + bs + (i + 1) * bs := by ring
        rw [e1, e2] at h
        exact h
      · have h := hlast
        have e1 : start + (k + 1 - 1) * bs = start + bs + (k - 1) * bs := by
          have hke : k + 1 - 1 = (k - 1) + 1 := by omega
          rw [hke]
          have hke2 : (k - 1 + 1) * bs = (k - 1) * bs + bs := by ring
          omega
        rw [e1] at h
        exact h

end MemPool

namespace MemPool

/-! ### Monad-reduction helpers -/

/-- Binding a successful `Except` computation. -/
theorem bindOk {α β : Type} (a : α) (f : α → Except PoolError β) :
    ((Except.ok a : Except PoolError α) >>= f) = f a := rfl

/-- Binding a raised `Except` computation propagates the exception. -/
theorem bindError {α β : Type} (e : PoolError) (f : α → Except PoolError β) :
    ((Except.error e : Except PoolError α) >>= f) = .error e := rfl

/-! ### Claim theorems -/

/-- Claim C1 (count invariant): `deallocateBlock` never decrements
`usedBlocks` — the source pushes the block and returns.  First conjunct:
for every state, deallocation leaves `usedBlocks` unchanged.  Second
conjunct: in the concrete run `c1run` (construct, reset, allocate block
8, deallocate it) `usedBlocks` is 1 directly after the allocation and
still 1 after the deallocation, where the claim requires it to drop back
to 0.  The code thus contradicts its own documentation (`usedBlocks //
Track the number of blocks currently in use`). -/
theorem c1_deallocate_does_not_decrement :
    (∀ (p : MemoryPool) (m : Mem) (b : Nat),
      ((deallocateBlock p m b).1).usedBlocks = p.usedBlocks) ∧
    c1run = .ok (8, 1, 1) := by
  constructor
  · intro p m b
    rfl
  · decide

/-- Claim C2 counterexample: after growing a 2-block pool to 3 blocks
(second region at 200) and calling `reset`, the head points at 8 — the
start of the *original* region, not the current one (200) — `usedBlocks`
is 0, `totalBlocks` is 3, but the reachable free chain is the stale
two-block chain `[8, 24]`: nothing was relinked and only 2 of the 3
blocks are free.  Continuing with three allocations whose growth
reservation fails raises `outOfMemory` instead of all succeeding. -/
theorem c2_counterexample :
    c2run = .ok (8, 200, 3, 0, [8, 24]) ∧
    ([8, 24] : List Nat).length ≠ 3 ∧
    c2exhaust = .error PoolError.outOfMemory := by
  refine ⟨by decide, by decide, by decide⟩

/-- Claim C2 (amended): `reset` sets `usedBlocks` to 0 and points the
head at `poolStart` — the start of the original backing region — leaving
every other field and all of memory untouched; in particular it performs
no relinking, so the free list after `reset` is exactly whatever chain
the memory still holds at `poolStart`. -/
theorem c2_reset_amended (p : MemoryPool) (m : Mem) (L : List Nat)
    (h : isChain m p.poolStart L = true) :
    (reset p).usedBlocks = 0 ∧ (reset p).freeList = p.poolStart ∧
    (reset p).totalBlocks = p.totalBlocks ∧ (reset p).poolStart = p.poolStart ∧
    isChain m (reset p).freeList L = true := by
  exact ⟨rfl, rfl, rfl, rfl, h⟩

/-- Witness for the amended C2 theorem at the concrete pool `c2wPool`
(original region at 8 holding the stale chain `[8, 24]`). -/
theorem c2_reset_amended_witness :
    isChain c2wMem c2wPool.poolStart [8, 24] = true ∧
    ((reset c2wPool).usedBlocks = 0 ∧ (reset c2wPool).freeList = c2wPool.poolStart ∧
     (reset c2wPool).totalBlocks = c2wPool.totalBlocks ∧
     (reset c2wPool).poolStart = c2wPool.poolStart ∧
     isChain c2wMem (reset c2wPool).freeList [8, 24] = true) :=
  ⟨by decide, c2_reset_amended c2wPool c2wMem [8, 24] (by decide)⟩

/-- Claim C3 counterexample: growing a pool of capacity 1 leaves
`totalBlocks` at `1 + 1 / 2 = 1` — there is no `totalBlocks + 1` guard
for capacities 0 and 1.  The run constructs a 1-block pool at 8,
allocates it, and allocates again, which grows into a region at 200 and
returns block 200, yet `totalBlocks` is still 1 afterwards, not at
least 2. -/
theorem c3_counterexample :
    c3run = .ok (8, 200, 1) ∧ ¬ (1 + 1 ≤ 1) := by
  refine ⟨by decide, by decide⟩

/-- Claim C3 (amended): for every pool with `totalBlocks ≥ 1`,
`resizePool` computes `newCapacity = totalBlocks + totalBlocks / 2`
with no lower-bound guard (so the capacity does not increase when
`totalBlocks = 1`), reserves a fresh region (here aligned to `start`),
slices it into a chain of `newCapacity` blocks whose tail links to the
pre-existing free-list head, installs the new chain's head, updates
`totalBlocks`, and leaves `poolStart` (and every other field)
unchanged; the resulting free list is the new blocks followed by all
previously free blocks.  The hypotheses say: the reservation address is
non-null and does not make the alignment arithmetic wrap, the old free
list is the chain `L`, and the fresh region is disjoint from `L` (fresh
memory). -/
theorem c3_resize_splices (p : MemoryPool) (m : Mem) (rawAddr start : Nat) (L : List Nat)
    (htb : 1 ≤ p.totalBlocks)
    (hbs : 8 ≤ p.blockSize)
    (hraw : 1 ≤ rawAddr)
    (ha : specValidAlignment p.alignment)
    (hnw : rawAddr + p.alignment ≤ 2 ^ 64)
    (hstart : alignPointer rawAddr p.alignment = .ok start)
    (hL : isChain m p.freeList L = true)
    (hdisj : ∀ a, a ∈ L → ∀ i, i < p.totalBlocks + p.totalBlocks / 2 →
      a ≠ start + i * p.blockSize) :
    resizePool p m (some rawAddr) =
      .ok ({ p with
             freeList := start
             totalBlocks := p.totalBlocks + p.totalBlocks / 2 },
           sliceChain m start p.blockSize (p.totalBlocks + p.totalBlocks / 2) p.freeList) ∧
    isChain (sliceChain m start p.blockSize (p.totalBlocks + p.totalBlocks / 2) p.freeList)
      start (blockAddrs start p.blockSize (p.totalBlocks + p.totalBlocks / 2) ++ L) = true := by
  have hpos : 0 < p.alignment := by
    obtain ⟨k, hk⟩ := ha
    have : 0 < 2 ^ k := Nat.pos_pow_of_pos k (by norm_num)
    omega
  have hstart1 : 1 ≤ start := by
    rw [alignPointer_eq_ok rawAddr p.alignment ha] at hstart
    have hadj : (p.alignment - rawAddr % p.alignment) % p.alignment < p.alignment :=
      Nat.mod_lt _ hpos
    have hsum : rawAddr + (p.alignment - rawAddr % p.alignment) % p.alignment < 2 ^ 64 := by
      omega
    rw [Nat.mod_eq_of_lt hsum] at hstart
    have := Except.ok.inj hstart
    omega
  set N := p.totalBlocks + p.totalBlocks / 2 with hN
  have hN1 : 1 ≤ N := by omega
  constructor
  · have h0 : ¬ rawAddr = 0 := by omega
    simp only [resizePool, h0, if_false, hstart]
    have hmem : writeMem (writeMem (linkLoop m start p.blockSize (N - 1)).1
        (linkLoop m start p.blockSize (N - 1)).2 0)
        (linkLoop m start p.blockSize (N - 1)).2 p.freeList
        = sliceChain m start p.blockSize N p.freeList := by
      rw [writeMem_same]
      rfl
    exact congrArg (fun mm => Except.ok ({ p with
      freeList := start
      totalBlocks := N }, mm)) hmem
  · apply isChainFrom_append _ _ p.freeList _ _ L
    · apply isChainFrom_blockAddrs _ _ (by omega) N start p.freeList hstart1 hN1
      · intro i hi
        exact sliceChain_read_mid m start p.blockSize N p.freeList (by omega) i hi
      · exact sliceChain_read_last m start p.blockSize N p.freeList
    · apply isChainFrom_congr m _ p.freeList 0 L _ hL
      intro a haL
      exact sliceChain_read_out m start p.blockSize N p.freeList a hN1
        (fun i hi => hdisj a haL i hi)

/-- Witness for the amended C3 theorem: a capacity-2 pool whose free
list still holds block 100 grows into a fresh region at 200; the result
is the 3-block chain 200, 216, 232 followed by the old block 100. -/
theorem c3_resize_splices_witness :
    (1 ≤ c3wPool.totalBlocks ∧ 8 ≤ c3wPool.blockSize ∧ (1 : Nat) ≤ 200 ∧
     specValidAlignment c3wPool.alignment ∧ 200 + c3wPool.alignment ≤ 2 ^ 64 ∧
     alignPointer 200 c3wPool.alignment = .ok 200 ∧
     isChain c3wMem c3wPool.freeList [100] = true ∧
     (∀ a, a ∈ ([100] : List Nat) → ∀ i,
        i < c3wPool.totalBlocks + c3wPool.totalBlocks / 2 →
        a ≠ 200 + i * c3wPool.blockSize)) ∧
    (resizePool c3wPool c3wMem (some 200) =
      .ok ({ c3wPool with
             freeList := 200
             totalBlocks := c3wPool.totalBlocks + c3wPool.totalBlocks / 2 },
           sliceChain c3wMem 200 c3wPool.blockSize
             (c3wPool.totalBlocks + c3wPool.totalBlocks / 2) c3wPool.freeList) ∧
     isChain (sliceChain c3wMem 200 c3wPool.blockSize
         (c3wPool.totalBlocks + c3wPool.totalBlocks / 2) c3wPool.freeList)
       200 (blockAddrs 200 c3wPool.blockSize
         (c3wPool.totalBlocks + c3wPool.totalBlocks / 2) ++ [100]) = true) :=
  ⟨⟨by decide, by decide, by decide, ⟨3, rfl⟩, by decide, by decide, by decide, by decide⟩,
   c3_resize_splices c3wPool c3wMem 200 200 [100] (by decide) (by decide) (by decide)
     ⟨3, rfl⟩ (by decide) (by decide) (by decide) (by decide)⟩

/-- Claim C4 counterexample: a capacity-1 pool at 8 hands out its only
block; the next `allocateBlock` finds the free list empty and invokes
growth, whose reservation fails — and the exception propagates out of
`allocateBlock` (`c4run = error outOfMemory`) instead of the claimed
null return (`ok (0, …)`). -/
theorem c4_counterexample : c4run = .error PoolError.outOfMemory := by
  decide

/-- Claim C4 (amended): when the free list is empty and the growth
reservation fails, `allocateBlock` raises the allocation failure
(`std::bad_alloc`, modelled `outOfMemory`) — it has no handler around
`resizePool` — rather than returning the null pointer; null is returned
only if the free list is still empty after a successful resize. -/
theorem c4_alloc_raises_on_failed_growth (p : MemoryPool) (m : Mem)
    (h : p.freeList = 0) :
    allocateBlock p m none = .error PoolError.outOfMemory := by
  simp [allocateBlock, resizePool, h, bindError]

/-- Witness for the amended C4 theorem at the exhausted pool
`c4wPool`. -/
theorem c4_alloc_raises_on_failed_growth_witness :
    c4wPool.freeList = 0 ∧
    allocateBlock c4wPool memZero none = .error PoolError.outOfMemory :=
  ⟨rfl, c4_alloc_raises_on_failed_growth c4wPool memZero rfl⟩

/-- Claim C5 counterexample: `alignPointer` computes in wrapping 64-bit
`uintptr_t` arithmetic, so at the top of the address space the claimed
result does not exist: aligning `2^64 - 1` to 2 wraps to 0, which is a
multiple of 2 but not an address greater than or equal to the input. -/
theorem c5_counterexample :
    alignPointer (2 ^ 64 - 1) 2 = .ok 0 ∧ ¬ (2 ^ 64 - 1 ≤ (0 : Nat)) := by
  refine ⟨by decide, by decide⟩

/-- Claim C5 (amended): for every address `p` and non-zero power-of-two
alignment `a`, provided the rounded-up value does not overflow 64 bits
(true for every address inside a successfully reserved region),
`alignPointer` returns the smallest multiple of `a` that is ≥ `p`;
consequently an aligned backing-region start is always a multiple of
the alignment. -/
theorem c5_align_least_multiple (p a : Nat) (ha : specValidAlignment a)
    (hnw : p + (a - p % a) % a < 2 ^ 64) :
    ∃ q, alignPointer p a = .ok q ∧ q % a = 0 ∧ p ≤ q ∧
      ∀ r, r % a = 0 → p ≤ r → q ≤ r := by
  have hpos : 0 < a := by
    obtain ⟨k, rfl⟩ := ha
    positivity
  refine ⟨p + (a - p % a) % a, ?_, ?_, Nat.le_add_right _ _, ?_⟩
  · rw [alignPointer_eq_ok p a ha, Nat.mod_eq_of_lt hnw]
  · by_cases h0 : p % a = 0
    · simp [h0, Nat.mod_self]
    · have hlt : a - p % a < a := by
        have := Nat.mod_lt p hpos
        omega
      rw [Nat.mod_eq_of_lt hlt]
      have h1 : p + (a - p % a) = a * (p / a) + p % a + (a - p % a) := by
        rw [Nat.div_add_mod]
      have hle : p % a < a := Nat.mod_lt p hpos
      have h2 : a * (p / a) + p % a + (a - p % a) = a * (p / a + 1) := by
        rw [Nat.mul_succ]
        omega
      rw [h1, h2]
      exact Nat.mul_mod_right a _
  · intro r hr hpr
    by_cases h0 : p % a = 0
    · simp [h0, Nat.mod_self]
      omega
    · have hlt : a - p % a < a := by
        have := Nat.mod_lt p hpos
        omega
      rw [Nat.mod_eq_of_lt hlt]
      have hre : a * (r / a) = r := by
        have := Nat.div_add_mod r a
        omega
      have hpe : a * (p / a) + p % a = p := Nat.div_add_mod p a
      have hdiv : p / a < r / a := by
        by_contra hc
        push_neg at hc
        have : a * (r / a) ≤ a * (p / a) := Nat.mul_le_mul_left a hc
        have hma : p % a < a := Nat.mod_lt p hpos
        omega
      have hmul : a * (p / a + 1) ≤ a * (r / a) := Nat.mul_le_mul_left a hdiv
      have h2 : a * (p / a + 1) = a * (p / a) + a := Nat.mul_succ a _
      have hma : p % a < a := Nat.mod_lt p hpos
      omega

/-- Witness for the amended C5 theorem: aligning 13 to 8 yields 16, the
least multiple of 8 that is at least 13. -/
theorem c5_align_least_multiple_witness :
    specValidAlignment 8 ∧ 13 + (8 - 13 % 8) % 8 < 2 ^ 64 ∧
    ∃ q, alignPointer 13 8 = .ok q ∧ q % 8 = 0 ∧ 13 ≤ q ∧
      ∀ r, r % 8 = 0 → 13 ≤ r → q ≤ r :=
  ⟨⟨3, rfl⟩, by decide, c5_align_least_multiple 13 8 ⟨3, rfl⟩ (by decide)⟩

/-- Claim C6: `alignPointer` raises `invalidAlignment` exactly when the
alignment argument is not a non-zero power of two (its guard
`a == 0 || (a & (a - 1)) != 0` is precisely that test), and on a valid
alignment it never raises and produces a result. -/
theorem c6_invalid_alignment_iff (p a : Nat) :
    (alignPointer p a = .error PoolError.invalidAlignment ↔ ¬ specValidAlignment a) ∧
    (specValidAlignment a → ∃ q, alignPointer p a = .ok q) := by
  constructor
  · constructor
    · intro h hval
      rw [alignPointer_eq_ok p a hval] at h
      exact Except.noConfusion h
    · intro hval
      unfold alignPointer
      rcases Nat.eq_zero_or_pos a with rfl | hpos
      · simp
      · have hne : ¬ (a &&& (a - 1) = 0) := by
          intro hzz
          rcases (land_pred_eq_zero_iff a).mp hzz with rfl | hk
          · omega
          · exact hval hk
        have haz : a ≠ 0 := by omega
        simp [hne, haz]
  · intro hval
    exact ⟨_, alignPointer_eq_ok p a hval⟩

/-- Witness instantiating the C6 theorem: alignment 0 is invalid and
`alignPointer 5 0` indeed raises `invalidAlignment`. -/
theorem c6_invalid_alignment_iff_witness :
    ¬ specValidAlignment 0 ∧
    alignPointer 5 0 = .error PoolError.invalidAlignment := by
  have h0 : ¬ specValidAlignment 0 := by
    rintro ⟨k, hk⟩
    have : 0 < 2 ^ k := Nat.pos_pow_of_pos k (by norm_num)
    omega
  exact ⟨h0, (c6_invalid_alignment_iff 5 0).1.mpr h0⟩

/-- Claim C7 counterexample: constructing a pool with `blockSize = 1`
(smaller than the 8-byte pointer width) succeeds — the constructor
performs no `blockSize` validation at all. -/
theorem c7_counterexample :
    exOk (mkMemoryPool garbagePool memZero 1 4 8 (some 8)) = true := by
  decide

/-- Claim C7 (amended): the constructor validates only the alignment
(inside `alignPointer`); for every `blockSize` — including ones smaller
than the pointer width — construction succeeds whenever the alignment
is a power of two and the reservation succeeds. -/
theorem c7_no_blockSize_validation (g : MemoryPool) (m : Mem)
    (bs cap a rawAddr : Nat) (ha : specValidAlignment a) :
    exOk (mkMemoryPool g m bs cap a (some rawAddr)) = true := by
  simp [mkMemoryPool, initializeMemoryPool, alignPointer_eq_ok rawAddr a ha, bindOk, exOk]

/-- Witness for the amended C7 theorem: `blockSize = 4` (below the
pointer width) with valid alignment 16 constructs successfully. -/
theorem c7_no_blockSize_validation_witness :
    specValidAlignment 16 ∧
    exOk (mkMemoryPool garbagePool memZero 4 5 16 (some 32)) = true :=
  ⟨⟨4, rfl⟩, c7_no_blockSize_validation garbagePool memZero 4 5 16 32 ⟨4, rfl⟩⟩

/-- Claim C8 (chain built, but `usedBlocks` never initialised): the
concrete construction of a 3-block pool at 40 yields head 40, the free
chain `40 → 56 → 72 → null` — exactly blocks 0, 1, 2 — but `usedBlocks`
is 7, the garbage value the field happened to hold, not 0.  The second
conjunct shows this generally: on every successful construction,
`usedBlocks` equals whatever indeterminate value the object started
with, because no code path assigns it. -/
theorem c8_construction_leaves_usedBlocks_garbage :
    c8run = .ok (40, [40, 56, 72], true, 7) ∧
    (∀ (g : MemoryPool) (m : Mem) (bs k a : Nat) (raw : Option Nat),
      Except.map (fun r => r.1.usedBlocks) (mkMemoryPool g m bs k a raw) =
        Except.map (fun _ => g.usedBlocks) (mkMemoryPool g m bs k a raw)) := by
  constructor
  · decide
  · intro g m bs k a raw
    rcases raw with _ | rawAddr
    · simp [mkMemoryPool, initializeMemoryPool, Except.map]
    · rcases halign : alignPointer rawAddr a with e | start
      · simp [mkMemoryPool, initializeMemoryPool, halign, bindError, Except.map]
      · simp [mkMemoryPool, initializeMemoryPool, halign, bindOk, Except.map]

/-- Claim C9 (LIFO round trip): for every pool state, memory, and
non-null block `b`, deallocating `b` and immediately allocating returns
`b` itself, restores the previous free-list head, and leaves the pool
identical except for the `usedBlocks` increment; the growth oracle is
irrelevant because the free list is non-empty. -/
theorem c9_dealloc_then_alloc_returns_same (p : MemoryPool) (m : Mem) (b : Nat)
    (raw : Option Nat) (hb : b ≠ 0) :
    allocateBlock (deallocateBlock p m b).1 (deallocateBlock p m b).2 raw =
      .ok (b, { p with usedBlocks := p.usedBlocks + 1 }, writeMem m b p.freeList) := by
  simp [allocateBlock, deallocateBlock, hb, writeMem, bindOk]

/-- Witness for the C9 theorem: deallocating block 8 into `c9wPool` and
allocating again returns 8. -/
theorem c9_dealloc_then_alloc_returns_same_witness :
    (8 : Nat) ≠ 0 ∧
    allocateBlock (deallocateBlock c9wPool memZero 8).1
        (deallocateBlock c9wPool memZero 8).2 none =
      .ok (8, { c9wPool with usedBlocks := c9wPool.usedBlocks + 1 },
           writeMem memZero 8 c9wPool.freeList) :=
  ⟨by decide, c9_dealloc_then_alloc_returns_same c9wPool memZero 8 none (by decide)⟩

/-- Claim C10 (frame): `resizePool` never assigns `poolStart`, so after
a grow the field still names the original backing region; hence a
subsequent `reset` points the head at the original region's start and
`destroyMemoryPool` hands exactly that original pointer to
`operator delete`. -/
theorem c10_resize_preserves_poolStart (p : MemoryPool) (m : Mem) (raw : Option Nat)
    (q : MemoryPool) (m2 : Mem) (h : resizePool p m raw = .ok (q, m2)) :
    q.poolStart = p.poolStart ∧ (reset q).freeList = p.poolStart ∧
    (destroyMemoryPool q).2 = p.poolStart := by
  rcases raw with _ | rawAddr
  · simp [resizePool] at h
  · by_cases h0 : rawAddr = 0
    · simp [resizePool, h0] at h
    · rcases halign : alignPointer rawAddr p.alignment with e | start
      · simp [resizePool, h0, halign, bindError] at h
      · simp [resizePool, h0, halign, bindOk] at h
        obtain ⟨hq, hm⟩ := h
        subst hq
        exact ⟨rfl, rfl, rfl⟩

/-- Witness for the C10 theorem: growing `c10wPool` (original region at
8) with a fresh region at 200 leaves `poolStart = 8`, `reset` then
points the head back at 8, and teardown releases pointer 8. -/
theorem c10_resize_preserves_poolStart_witness :
    ∃ q m2, resizePool c10wPool memZero (some 200) = .ok (q, m2) ∧
      q.poolStart = c10wPool.poolStart ∧ (reset q).freeList = c10wPool.poolStart ∧
      (destroyMemoryPool q).2 = c10wPool.poolStart := by
  refine ⟨_, _, rfl, ?_⟩
  exact c10_resize_preserves_poolStart c10wPool memZero (some 200) _ _ rfl

end MemPool
